import Mathlib

/-!
Verification of the encode/decode kernel and the image bar detector of the
Waveform Barcode v2 repository (`src/WaveformBarcodeV2.jsx`).

The JavaScript source is shallowly embedded: machine numbers become `Nat`
(with explicit wrap-around where JavaScript's 32-bit shift operators matter),
the BigInt computations become exact `Nat` arithmetic, fallible operations
return `Option` or a result inductive, and pixel coordinates (which are
fractional in the scanner) become `ℚ`.
-/

namespace WaveformBarcode

/-- Source constant `NUM_BARS = 23`. -/
def NUM_BARS : Nat := 23

/-- Source table `GRAY_ENCODE = [0, 1, 3, 2, 6, 7, 5, 4]` (3-bit Gray code). -/
def GRAY_ENCODE : List Nat := [0, 1, 3, 2, 6, 7, 5, 4]

/-- Source table `GRAY_DECODE = [0, 1, 3, 2, 7, 6, 4, 5]`. -/
def GRAY_DECODE : List Nat := [0, 1, 3, 2, 7, 6, 4, 5]

/-- `GRAY_ENCODE[n]`; the source always indexes with `n` in 0..7. -/
def grayEncode (n : Nat) : Nat := GRAY_ENCODE.getD n 0

/-- `GRAY_DECODE[n]`; the source always indexes with `n` in 0..7. -/
def grayDecode (n : Nat) : Nat := GRAY_DECODE.getD n 0

/-- The inner 8-iteration loop of `crc8`:
`if (crc & 0x80) crc = ((crc << 1) ^ 0x07) & 0xff; else crc = (crc << 1) & 0xff`. -/
def crc8Bits : Nat → Nat → Nat
  | c, 0 => c
  | c, n + 1 =>
      crc8Bits (if c &&& 0x80 ≠ 0 then ((c <<< 1) ^^^ 0x07) &&& 0xff
                else (c <<< 1) &&& 0xff) n

/-- Source `crc8(data)`: CRC-8, polynomial 0x07, initial value 0, MSB first. -/
def crc8 (data : List Nat) : Nat :=
  data.foldl (fun crc byte => crc8Bits (crc ^^^ byte) 8) 0

/-- JavaScript `ToInt32` applied to a non-negative safe integer: reduce modulo
`2^32` and reinterpret as a signed 32-bit value. -/
def toInt32 (n : Nat) : Int :=
  if n % 2 ^ 32 < 2 ^ 31 then ((n % 2 ^ 32 : Nat) : Int)
  else ((n % 2 ^ 32 : Nat) : Int) - 2 ^ 32

/-- JavaScript `(num >> s) & 0xff` for a non-negative safe integer `num`:
the shift count is taken modulo 32, the left operand is converted with
`ToInt32`, the shift is arithmetic (floor division), and `& 0xff` keeps the
low 8 bits of the two's-complement result. -/
def jsByte (num s : Nat) : Nat :=
  (((toInt32 num).fdiv (2 ^ (s % 32))).emod 256).toNat

/-- Source `numToBytes(num, len)`: pushes `(num >> (i*8)) & 0xff` for
`i = len-1` down to `0`, with JavaScript shift semantics. -/
def numToBytes (num len : Nat) : List Nat :=
  (List.range len).reverse.map (fun i => jsByte num (i * 8))

/-- Source constant `MAX_40BIT = 0xffffffffff`. -/
def MAX_40BIT : Nat := 0xffffffffff

/-- Source line 51: `combined = (BigInt(num) << 8n) | BigInt(checksum)` where
`checksum = crc8(numToBytes(num, 5))` (lines 46-47). BigInt arithmetic is
exact, hence plain `Nat` operations. -/
def combinedOf (num : Nat) : Nat :=
  (num <<< 8) ||| crc8 (numToBytes num 5)

/-- Source lines 61-64 of `encodeToHeights` (also the claims' "spread
permutation"): `permuted[i] = dataHeights[(i * 7) % 16]` for `i` in 0..15. -/
def permute (dataHeights : List Nat) : List Nat :=
  (List.range 16).map (fun i => dataHeights.getD ((i * 7) % 16) 0)

/-- The body of `encodeToHeights` after the range check (source lines 45-80):
CRC, 48-bit combine, 3-bit group extraction with Gray coding (loop
`for i = 15; i >= 0; i--`, so element `j` uses shift `(15-j)*3`), spread
permutation, and the 23-bar layout `[0] ++ 10 bars ++ [7] ++ 10 bars ++ [0]`
(both layout loops guard with `i < permuted.length`). -/
def encodeCore (num : Nat) : List Nat :=
  let combined := combinedOf num
  let dataHeights :=
    (List.range 16).map (fun j => grayEncode ((combined >>> ((15 - j) * 3)) &&& 7))
  let permuted := permute dataHeights
  [0]
    ++ (List.range 10).map (fun i => if i < permuted.length then permuted.getD i 0 else 0)
    ++ [7]
    ++ (List.range 10).map (fun i =>
          if i + 10 < permuted.length then permuted.getD (i + 10) 0 else 0)
    ++ [0]

/-- Source `encodeToHeights(mediaRef)` (lines 41-81). The source first runs
`Number.parseInt` on its string argument; `none` models a parse that returned
`NaN`, `some n` models a parse that produced the integer `n`. The guard is
`if (Number.isNaN(num) || num < 0 || num > MAX_40BIT) return null`. -/
def encodeToHeights (mediaRef : Option Int) : Option (List Nat) :=
  match mediaRef with
  | none => none
  | some num =>
      if num < 0 ∨ (MAX_40BIT : Int) < num then none
      else some (encodeCore num.toNat)

/-- Result of `decodeFromHeights`: `{error}` objects become `err`, the
`{error: CRC mismatch..., data}` object becomes `crcMismatch expected got data`,
and `{data, valid: true}` becomes `ok data`. -/
inductive DecodeResult where
  | err (msg : String)
  | crcMismatch (expected got data : Nat)
  | ok (data : Nat)
deriving DecidableEq, Repr

/-- Source lines 96-98: `dataHeights` collects `heights[1..10]` and
`heights[12..21]`. -/
def stripMarkers (heights : List Nat) : List Nat :=
  (heights.drop 1).take 10 ++ (heights.drop 12).take 10

/-- Source lines 101-104: `unpermuted[(i * 7) % 16] = dataHeights[i]` for `i`
in 0..15. The JavaScript array starts out with holes; every slot is written
because `i ↦ (i*7) % 16` is a bijection on 0..15 (proved below), so the
initial `replicate` values never survive. -/
def unpermute (dataHeights : List Nat) : List Nat :=
  (List.range 16).foldl
    (fun acc i => acc.set ((i * 7) % 16) (dataHeights.getD i 0))
    (List.replicate 16 0)

/-- Source lines 107-112: rebuild the 48-bit payload. The heights reaching
this function are natural numbers (the encoder emits levels 0-7 and the
scanner clamps to 0-7), so `Math.round` is the identity and is dropped;
`Math.min(7, Math.max(0, h))` stays. -/
def recombine (unpermuted : List Nat) : Nat :=
  unpermuted.foldl
    (fun combined h => (combined <<< 3) ||| grayDecode (min 7 (max 0 h))) 0

/-- Source `decodeFromHeights(heights)` (lines 84-130). -/
def decodeFromHeights (heights : List Nat) : DecodeResult :=
  if heights.length ≠ NUM_BARS then .err "Invalid bar count"
  else if 1 < heights.getD 0 0 ∨ 1 < heights.getD (NUM_BARS - 1) 0 then
    .err "Invalid start/end markers"
  else if heights.getD 11 0 < 6 then .err "Invalid center reference bar"
  else
    let combined := recombine (unpermute (stripMarkers heights))
    let checksum := combined &&& 0xff
    let data := combined >>> 8
    let calculatedCrc := crc8 (numToBytes data 5)
    if calculatedCrc ≠ checksum then .crcMismatch calculatedCrc checksum data
    else .ok data

/-- Modelled from the spec (refinement comparison for the checksum claim):
the true 5-byte big-endian representation of an identifier, "the bytes
[(id>>32)&0xff, (id>>24)&0xff, (id>>16)&0xff, (id>>8)&0xff, id&0xff] under
exact (wider-than-32-bit) shift semantics". -/
def specBigEndianBytes (num len : Nat) : List Nat :=
  (List.range len).reverse.map (fun i => num / 2 ^ (i * 8) % 256)

/-! ### The image bar detector (`decodeCanvas`, source lines 381-458)

Pixel coordinates are fractional in the source (bar centers end in `.5`), so
they are modelled as rationals. JavaScript computes brightness and scan-line
positions in binary floating point; the rational model agrees with it on every
comparison settled below (the brightness comparison `(r+g+b)/3 < 128` is
decided identically because consecutive doubles near 128 are far closer
together than 1/3, and the concrete canvases evaluated here are uniform, so
scan-line placement cannot affect the result). -/

/-- The pixel buffer handed to `decodeCanvas`: `data` is the RGBA byte array
of `getImageData`, indexed as in the source. -/
structure Canvas where
  width : Nat
  height : Nat
  data : Nat → Nat

/-- Source `getBrightness(x, y)`: 255 outside the canvas, otherwise the mean
of the three color channels at the floored coordinates. -/
def getBrightness (cv : Canvas) (x y : ℚ) : ℚ :=
  if x < 0 ∨ (cv.width : ℚ) ≤ x ∨ y < 0 ∨ (cv.height : ℚ) ≤ y then 255
  else
    let i := (⌊y⌋.toNat * cv.width + ⌊x⌋.toNat) * 4
    ((cv.data i : ℚ) + (cv.data (i + 1) : ℚ) + (cv.data (i + 2) : ℚ)) / 3

/-- Source `isBlack(x, y) = getBrightness(x, y) < 128`: the detector's fixed
pixel classification. -/
def isBlack (cv : Canvas) (x y : ℚ) : Bool :=
  decide (getBrightness cv x y < 128)

/-- Source loop `while (topY > 0 && isBlack(centerX, topY - 1)) topY--`,
structurally recursive in `topY`. -/
def expandTop (cv : Canvas) (cX : ℚ) : Nat → Nat
  | 0 => 0
  | t + 1 => if isBlack cv cX (t : ℚ) then expandTop cv cX t else t + 1

/-- Source loop
`while (bottomY < canvas.height - 1 && isBlack(centerX, bottomY + 1)) bottomY++`.
The first argument is fuel; the loop runs at most `height` times, so calling
with fuel `cv.height` reproduces it exactly. -/
def expandBottom (cv : Canvas) (cX : ℚ) : Nat → Nat → Nat
  | 0, b => b
  | f + 1, b =>
      if b < cv.height - 1 ∧ isBlack cv cX ((b : ℚ) + 1) then expandBottom cv cX f (b + 1)
      else b

/-- A detected bar: its horizontal center and measured pixel height. -/
structure Bar where
  centerX : ℚ
  barHeight : Nat
deriving DecidableEq, Repr

/-- One iteration of the source's `for (x = 0; x < canvas.width; x++)` run
detection loop; the state is `(inBar, barStart, bars)`. -/
def scanStep (cv : Canvas) (centerY : Nat) (st : Bool × Nat × List Bar) (x : Nat) :
    Bool × Nat × List Bar :=
  let black := isBlack cv (x : ℚ) (centerY : ℚ)
  if black ∧ ¬ st.1 then (true, x, st.2.2)
  else if ¬ black ∧ st.1 then
    let barWidth := x - st.2.1
    if 8 ≤ barWidth then
      let cX : ℚ := (st.2.1 : ℚ) + (barWidth : ℚ) / 2
      let topY := expandTop cv cX centerY
      let bottomY := expandBottom cv cX cv.height centerY
      (false, st.2.1, st.2.2 ++ [⟨cX, bottomY - topY + 1⟩])
    else (false, st.2.1, st.2.2)
  else st

/-- All bars found on one scan line (a bar still open at the right edge is
dropped, as in the source). -/
def scanLine (cv : Canvas) (centerY : Nat) : List Bar :=
  ((List.range cv.width).foldl (scanStep cv centerY) (false, 0, [])).2.2

/-- Source `scanLines = [0.4, 0.45, 0.5, 0.55, 0.6].map(r => Math.floor(canvas.height * r))`. -/
def scanLinesOf (cv : Canvas) : List Nat :=
  [(2 : ℚ) / 5, 9 / 20, 1 / 2, 11 / 20, 3 / 5].map
    (fun r => (⌊(cv.height : ℚ) * r⌋).toNat)

/-- Source: keep the scan line that produced the most bars. -/
def bestBarsOf (cv : Canvas) : List Bar :=
  (scanLinesOf cv).foldl
    (fun best cY =>
      let bars := scanLine cv cY
      if best.length < bars.length then bars else best)
    []

/-- JavaScript `Math.round` (round half toward positive infinity). -/
def jsRound (q : ℚ) : Int := ⌊q + 1 / 2⌋

/-- Result of `decodeCanvas`: the `Only found N bars` error, or the result of
`decodeFromHeights` on the quantized sequence. -/
inductive ScanResult where
  | notEnough (n : Nat)
  | decoded (r : DecodeResult)
deriving DecidableEq, Repr

/-- The pure core of source `decodeCanvas(canvas)` (lines 381-443): bar
detection, quantization against the tallest bar, padding to 23 entries, and
`decodeFromHeights`. (The subsequent `localStorage` lookup and redirect are
UI glue outside the decoding core.) -/
def decodeCanvas (cv : Canvas) : ScanResult :=
  let bestBars := bestBarsOf cv
  if bestBars.length < 15 then .notEnough bestBars.length
  else
    let maxHeight := (bestBars.map Bar.barHeight).foldl max 0
    let unitH : ℚ := (maxHeight : ℚ) / 8
    let detectedHeights := bestBars.map (fun bar =>
      let level := jsRound ((bar.barHeight : ℚ) / unitH) - 1
      (min 7 (max 0 level)).toNat)
    let finalHeights :=
      (detectedHeights ++ List.replicate (NUM_BARS - detectedHeights.length) 0).take NUM_BARS
    .decoded (decodeFromHeights finalHeights)

/-! ### Arithmetic helper lemmas -/

/-- Shifting left and or-ing in a small value is plain positional arithmetic. -/
lemma shiftLeft_lor_eq_add (k a b : Nat) (h : b < 2 ^ k) :
    (a <<< k) ||| b = a * 2 ^ k + b := by
  rw [Nat.shiftLeft_eq]
  apply Nat.eq_of_testBit_eq
  intro i
  simp only [Nat.testBit_or]
  rcases Nat.lt_or_ge i k with hik | hik
  · have h1 : (a * 2 ^ k).testBit i = false := by
      have h2 : a * 2 ^ k = (a * 2 ^ (k - i)) * 2 ^ i := by
        rw [Nat.mul_assoc, ← pow_add]
        congr 2
        omega
      rw [Nat.testBit_to_div_mod, h2, Nat.mul_div_cancel _ (Nat.pos_pow_of_pos i (by norm_num))]
      have h3 : 2 ∣ a * 2 ^ (k - i) := by
        have : (2 : Nat) ∣ 2 ^ (k - i) := dvd_pow_self 2 (by omega)
        exact Dvd.dvd.mul_left this a
      simp only [decide_eq_false_iff_not]
      omega
    rw [h1, Bool.false_or]
    rw [Nat.testBit_to_div_mod, Nat.testBit_to_div_mod]
    have h2 : 2 ^ k = 2 ^ i * 2 ^ (k - i) := by rw [← pow_add]; congr 1; omega
    have h4 : (a * 2 ^ k + b) / 2 ^ i = a * 2 ^ (k - i) + b / 2 ^ i := by
      rw [h2, ← Nat.mul_assoc, Nat.mul_comm a (2 ^ i), Nat.mul_assoc,
        Nat.mul_add_div (Nat.pos_pow_of_pos i (by norm_num))]
    have h3 : 2 ∣ a * 2 ^ (k - i) := by
      have : (2 : Nat) ∣ 2 ^ (k - i) := dvd_pow_self 2 (by omega)
      exact Dvd.dvd.mul_left this a
    obtain ⟨t, ht⟩ := h3
    rw [h4, ht, Nat.mul_add_mod]
  · have hb : b.testBit i = false :=
      Nat.testBit_lt_two_pow (lt_of_lt_of_le h (Nat.pow_le_pow_right (by norm_num) hik))
    rw [hb, Bool.or_false]
    rw [Nat.testBit_to_div_mod, Nat.testBit_to_div_mod]
    have h4 : 2 ^ i = 2 ^ k * 2 ^ (i - k) := by rw [← pow_add]; congr 1; omega
    have h5 : (a * 2 ^ k + b) / 2 ^ i = a / 2 ^ (i - k) := by
      rw [h4, ← Nat.div_div_eq_div_mul, Nat.mul_comm a (2 ^ k),
        Nat.mul_add_div (Nat.pos_pow_of_pos k (by norm_num)),
        Nat.div_eq_of_lt h, Nat.add_zero]
    have h6 : a * 2 ^ k / 2 ^ i = a / 2 ^ (i - k) := by
      rw [h4, ← Nat.div_div_eq_div_mul, Nat.mul_div_cancel _ (Nat.pos_pow_of_pos k (by norm_num))]
    rw [h5, h6]

/-- Low three bits as a remainder. -/
lemma and_seven (x : Nat) : x &&& 7 = x % 8 :=
  Nat.and_pow_two_sub_one_eq_mod x 3

/-- Low eight bits as a remainder. -/
lemma and_255 (x : Nat) : x &&& 255 = x % 256 :=
  Nat.and_pow_two_sub_one_eq_mod x 8

/-- One step of `recombine` on a 3-bit group, arithmetically. -/
lemma recombine_step (a x : Nat) : (a <<< 3) ||| (x &&& 7) = 8 * a + x % 8 := by
  rw [and_seven, shiftLeft_lor_eq_add 3 a (x % 8) (Nat.mod_lt _ (by norm_num))]
  ring

/-- Gray encoding, clamping, then Gray decoding restores a 3-bit value. -/
lemma gray_round_and (x : Nat) :
    grayDecode (min 7 (max 0 (grayEncode (x &&& 7)))) = x &&& 7 := by
  have h : x &&& 7 < 8 := lt_of_le_of_lt Nat.and_le_right (by norm_num)
  generalize x &&& 7 = s at h ⊢
  interval_cases s <;> rfl

/-- The CRC inner loop, run at least once, leaves an 8-bit value. -/
lemma crc8Bits_lt : ∀ (n : Nat) (c : Nat), crc8Bits c (n + 1) < 256 := by
  intro n
  induction n with
  | zero =>
      intro c
      show crc8Bits _ 0 < 256
      split
      · exact lt_of_le_of_lt Nat.and_le_right (by norm_num)
      · exact lt_of_le_of_lt Nat.and_le_right (by norm_num)
  | succ n ih =>
      intro c
      show crc8Bits _ (n + 1) < 256
      split
      · exact ih _
      · exact ih _

lemma crc8_foldl_lt :
    ∀ (l : List Nat) (c : Nat), c < 256 →
      List.foldl (fun crc byte => crc8Bits (crc ^^^ byte) 8) c l < 256 := by
  intro l
  induction l with
  | nil => intro c hc; simpa using hc
  | cons b t ih => intro c hc; exact ih _ (crc8Bits_lt 7 _)

/-- `crc8` always produces an 8-bit value. -/
lemma crc8_lt (l : List Nat) : crc8 l < 256 :=
  crc8_foldl_lt l 0 (by norm_num)

/-! ### Structure of the encoder output -/

lemma encodeCore_length (num : Nat) : (encodeCore num).length = 23 := rfl

lemma encodeCore_getD0 (num : Nat) : (encodeCore num).getD 0 0 = 0 := rfl

lemma encodeCore_getD11 (num : Nat) : (encodeCore num).getD 11 0 = 7 := rfl

lemma encodeCore_getD22 (num : Nat) : (encodeCore num).getD 22 0 = 0 := rfl

set_option maxHeartbeats 1600000 in
/-- Stripping the markers from an encoded sequence and undoing the spread
permutation restores the Gray-coded 3-bit groups in order: position `j`
holds group `15 - j` of the combined payload. -/
lemma strip_unperm (num : Nat) :
    unpermute (stripMarkers (encodeCore num)) =
      (List.range 16).map (fun j => grayEncode ((combinedOf num >>> ((15 - j) * 3)) &&& 7)) := rfl

/-- Folding Gray-decoded 3-bit groups (most significant first) accumulates
the base-8 digits of the original payload. -/
lemma fold_digits : ∀ (n : Nat) (c acc : Nat),
    List.foldl (fun combined h => (combined <<< 3) ||| grayDecode (min 7 (max 0 h))) acc
      ((List.range n).map (fun j => grayEncode ((c >>> ((n - 1 - j) * 3)) &&& 7)))
      = acc * 8 ^ n + c % 8 ^ n := by
  intro n
  induction n with
  | zero => intro c acc; simp [Nat.mod_one]
  | succ n ih =>
      intro c acc
      rw [List.range_succ, List.map_append, List.foldl_append]
      simp only [List.map_cons, List.map_nil, List.foldl_cons, List.foldl_nil]
      have hl : (List.range n).map (fun j => grayEncode ((c >>> ((n + 1 - 1 - j) * 3)) &&& 7))
          = (List.range n).map (fun j => grayEncode (((c >>> 3) >>> ((n - 1 - j) * 3)) &&& 7)) := by
        apply List.map_congr_left
        intro j hj
        have hj' : j < n := List.mem_range.mp hj
        have h3 : (n + 1 - 1 - j) * 3 = 3 + (n - 1 - j) * 3 := by omega
        rw [h3, Nat.shiftRight_add]
      rw [hl, ih]
      have hz : (n + 1 - 1 - n) * 3 = 0 := by omega
      rw [hz, Nat.shiftRight_zero, gray_round_and, recombine_step]
      have hm : c % 8 ^ (n + 1) = c % 8 + 8 * (c / 8 % 8 ^ n) := by
        have h8 : (8 : Nat) ^ (n + 1) = 8 * 8 ^ n := by ring
        rw [h8, Nat.mod_mul]
      have hd : c >>> 3 = c / 8 := by
        rw [Nat.shiftRight_eq_div_pow]
      rw [hm, hd]
      ring

/-- Gray-decoding the 16 groups and folding them back together restores any
48-bit payload. -/
lemma recombine_digits (c : Nat) (hc : c < 2 ^ 48) :
    recombine ((List.range 16).map
      (fun j => grayEncode ((c >>> ((15 - j) * 3)) &&& 7))) = c := by
  have hc' : c < 8 ^ 16 := by
    have h8 : (8 : Nat) ^ 16 = 2 ^ 48 := by norm_num
    omega
  have h := fold_digits 16 c 0
  rw [Nat.mod_eq_of_lt hc', Nat.zero_mul, Nat.zero_add] at h
  exact h

/-! ### Concrete-canvas evaluation lemmas (for the detector claims) -/

/-- Every in-bounds pixel of the uniform black 4-by-4 canvas is classified as
a bar pixel. -/
lemma black_canvas_isBlack (x y : ℚ) (hx0 : 0 ≤ x) (hxw : x < 4) (hy0 : 0 ≤ y) (hyh : y < 4) :
    isBlack ⟨4, 4, fun _ => 0⟩ x y = true := by
  unfold isBlack getBrightness
  rw [if_neg]
  · norm_num
  · push_neg
    norm_num
    exact ⟨hx0, hxw, hy0, hyh⟩

/-- On the uniform black canvas every scan line is one unbroken run, which the
source drops at the right edge, so no bar is ever recorded. -/
lemma black_line (cY : Nat) (h : cY < 4) : scanLine ⟨4, 4, fun _ => 0⟩ cY = [] := by
  have hcY0 : (0 : ℚ) ≤ (cY : ℚ) := by positivity
  have hcY4 : (cY : ℚ) < 4 := by exact_mod_cast h
  have h0 : isBlack ⟨4, 4, fun _ => 0⟩ 0 (cY : ℚ) = true :=
    black_canvas_isBlack _ _ (by norm_num) (by norm_num) hcY0 hcY4
  have h1 : isBlack ⟨4, 4, fun _ => 0⟩ 1 (cY : ℚ) = true :=
    black_canvas_isBlack _ _ (by norm_num) (by norm_num) hcY0 hcY4
  have h2 : isBlack ⟨4, 4, fun _ => 0⟩ 2 (cY : ℚ) = true :=
    black_canvas_isBlack _ _ (by norm_num) (by norm_num) hcY0 hcY4
  have h3 : isBlack ⟨4, 4, fun _ => 0⟩ 3 (cY : ℚ) = true :=
    black_canvas_isBlack _ _ (by norm_num) (by norm_num) hcY0 hcY4
  unfold scanLine
  rw [show List.range 4 = [0, 1, 2, 3] from rfl]
  simp [scanStep, h0, h1, h2, h3]

/-- The detector finds no bars at all on the uniform black canvas. -/
lemma black_best : bestBarsOf ⟨4, 4, fun _ => 0⟩ = [] := by
  have b1 := black_line 1 (by norm_num)
  have b2 := black_line 2 (by norm_num)
  unfold bestBarsOf scanLinesOf
  norm_num [Int.floor_eq_iff]
  simp [b1, b2]

/-! ### Bounds for the decoded payload -/

/-- The clamped Gray decode always produces a 3-bit value. -/
lemma grayDecode_clamp_lt (h : Nat) : grayDecode (min 7 (max 0 h)) < 8 := by
  have h7 : min 7 (max 0 h) ≤ 7 := min_le_left _ _
  generalize min 7 (max 0 h) = s at h7
  interval_cases s <;> decide

/-- Each fold step adds three bits, so the accumulated payload stays bounded. -/
lemma recombine_bound :
    ∀ (l : List Nat) (acc k : Nat), acc < 2 ^ k →
      List.foldl (fun combined h => (combined <<< 3) ||| grayDecode (min 7 (max 0 h))) acc l
        < 2 ^ (k + 3 * l.length) := by
  intro l
  induction l with
  | nil => intro acc k hk; simpa using hk
  | cons b t ih =>
      intro acc k hk
      have hg := grayDecode_clamp_lt b
      have hstep : (acc <<< 3) ||| grayDecode (min 7 (max 0 b)) < 2 ^ (k + 3) := by
        rw [shiftLeft_lor_eq_add 3 acc _ hg]
        have h2 : (2 : Nat) ^ (k + 3) = 8 * 2 ^ k := by ring
        omega
      have hrec := ih _ _ hstep
      simp only [List.foldl_cons, List.length_cons]
      have hexp : k + 3 * (t.length + 1) = k + 3 + 3 * t.length := by ring
      rw [hexp]
      exact hrec

/-- A payload rebuilt from 16 groups is at most 48 bits. -/
lemma recombine_lt16 (l : List Nat) (h : l.length = 16) : recombine l < 2 ^ 48 := by
  have hb := recombine_bound l 0 0 (by norm_num)
  rw [h] at hb
  unfold recombine
  simpa using hb

/-- The inverse permutation always fills exactly 16 slots. -/
lemma unpermute_length (l : List Nat) : (unpermute l).length = 16 := by
  unfold unpermute
  rw [show List.range 16 = [0, 1, 2, 3, 4, 5, 6, 7, 8, 9, 10, 11, 12, 13, 14, 15] from rfl]
  simp [List.length_set]

/-! ### Arithmetic facts about the combined payload -/

lemma combinedOf_eq (num : Nat) :
    combinedOf num = 256 * num + crc8 (numToBytes num 5) := by
  unfold combinedOf
  rw [shiftLeft_lor_eq_add 8 num _ (crc8_lt _)]
  ring

lemma combinedOf_lt (num : Nat) (h : num ≤ MAX_40BIT) : combinedOf num < 2 ^ 48 := by
  rw [combinedOf_eq]
  have hcrc := crc8_lt (numToBytes num 5)
  unfold MAX_40BIT at h
  omega

lemma combinedOf_shift (num : Nat) : combinedOf num >>> 8 = num := by
  rw [Nat.shiftRight_eq_div_pow, combinedOf_eq]
  have hcrc := crc8_lt (numToBytes num 5)
  omega

lemma combinedOf_and (num : Nat) : combinedOf num &&& 255 = crc8 (numToBytes num 5) := by
  rw [and_255, combinedOf_eq]
  have hcrc := crc8_lt (numToBytes num 5)
  omega

lemma encodeCore_length_nb (num : Nat) : (encodeCore num).length = NUM_BARS := rfl

lemma encodeCore_getD_last (num : Nat) : (encodeCore num).getD (NUM_BARS - 1) 0 = 0 := rfl

/-! ### Claim theorems -/

/-- C1: for every integer `id` in [0, 2^40-1], encoding succeeds with the
23-element height sequence `encodeCore id`, and decoding that sequence
succeeds (`valid: true`) returning the identifier `id` itself. -/
theorem c1_round_trip (id : Nat) (h : id ≤ MAX_40BIT) :
    encodeToHeights (some (id : Int)) = some (encodeCore id) ∧
    decodeFromHeights (encodeCore id) = DecodeResult.ok id := by
  constructor
  · simp only [encodeToHeights]
    rw [if_neg]
    · norm_num
    · simp only [MAX_40BIT] at h ⊢
      push_cast
      omega
  · simp only [decodeFromHeights, encodeCore_length_nb, encodeCore_getD0,
      encodeCore_getD11, encodeCore_getD_last]
    norm_num
    rw [strip_unperm, recombine_digits _ (combinedOf_lt id h), combinedOf_shift, combinedOf_and]
    norm_num

/-- Witness for C1 at the concrete identifier 3. -/
theorem c1_round_trip_witness :
    encodeToHeights (some ((3 : Nat) : Int)) = some (encodeCore 3) ∧
    decodeFromHeights (encodeCore 3) = DecodeResult.ok 3 :=
  c1_round_trip 3 (by decide)

set_option maxRecDepth 10000 in
/-- C2: the checksum embedded by encode at id = 1 is the CRC-8 of the bytes
`numToBytes` actually produces under JavaScript 32-bit shift semantics,
namely `[1, 0, 0, 0, 1]`, and differs from the CRC-8 of the true 5-byte
big-endian representation `[0, 0, 0, 0, 1]` demanded by the claim. -/
theorem c2_checksum_test :
    numToBytes 1 5 = [1, 0, 0, 0, 1] ∧
    specBigEndianBytes 1 5 = [0, 0, 0, 0, 1] ∧
    combinedOf 1 &&& 255 = crc8 (numToBytes 1 5) ∧
    combinedOf 1 &&& 255 ≠ crc8 (specBigEndianBytes 1 5) := by decide

/-- C3 (amended): the bar-pixel classification is the fixed threshold 128 on
the three-channel average (equivalently, channel sum below 384), independent
of any background or contrast statistic; the only detector failure is the
`Only found N bars` error, raised exactly when fewer than 15 bars are found,
and with at least 15 bars the detector always proceeds to decoding. -/
theorem c3_fixed_threshold (cv : Canvas) :
    (∀ x y : ℚ, 0 ≤ x → x < cv.width → 0 ≤ y → y < cv.height →
      (isBlack cv x y = true ↔
        cv.data ((⌊y⌋.toNat * cv.width + ⌊x⌋.toNat) * 4)
          + cv.data ((⌊y⌋.toNat * cv.width + ⌊x⌋.toNat) * 4 + 1)
          + cv.data ((⌊y⌋.toNat * cv.width + ⌊x⌋.toNat) * 4 + 2) < 384))
    ∧ (∀ n, decodeCanvas cv = ScanResult.notEnough n → n = (bestBarsOf cv).length ∧ n < 15)
    ∧ (15 ≤ (bestBarsOf cv).length → ∃ r, decodeCanvas cv = ScanResult.decoded r) := by
  refine ⟨?_, ?_, ?_⟩
  · intro x y hx0 hxw hy0 hyh
    unfold isBlack getBrightness
    rw [if_neg (by push_neg; exact ⟨hx0, hxw, hy0, hyh⟩)]
    simp only [decide_eq_true_eq]
    rw [div_lt_iff₀ (by norm_num : (0 : ℚ) < 3)]
    norm_num
    exact_mod_cast Iff.rfl
  · intro n h
    simp only [decodeCanvas] at h
    split_ifs at h with hlt
    injection h with h'
    exact ⟨h'.symm, by omega⟩
  · intro hge
    simp only [decodeCanvas]
    rw [if_neg (by omega)]
    exact ⟨_, rfl⟩

/-- Witness for C3 (amended) on the uniform black canvas at pixel (0, 0). -/
theorem c3_fixed_threshold_witness :
    isBlack ⟨4, 4, fun _ => 0⟩ 0 0 = true ↔
      (fun _ => 0 : Nat → Nat) ((⌊(0 : ℚ)⌋.toNat * 4 + ⌊(0 : ℚ)⌋.toNat) * 4)
        + (fun _ => 0 : Nat → Nat) ((⌊(0 : ℚ)⌋.toNat * 4 + ⌊(0 : ℚ)⌋.toNat) * 4 + 1)
        + (fun _ => 0 : Nat → Nat) ((⌊(0 : ℚ)⌋.toNat * 4 + ⌊(0 : ℚ)⌋.toNat) * 4 + 2) < 384 :=
  (c3_fixed_threshold ⟨4, 4, fun _ => 0⟩).1 0 0 (by norm_num) (by norm_num) (by norm_num)
    (by norm_num)

/-- C3 counterexample: a uniform (zero-contrast) canvas, on which the claim
demands a `low contrast` failure, instead makes the detector fail with the
bar-count error `Only found 0 bars` — no low-contrast check exists. -/
theorem c3_no_low_contrast_error :
    getBrightness ⟨4, 4, fun _ => 0⟩ 1 2 = 0 ∧
    decodeCanvas ⟨4, 4, fun _ => 0⟩ = ScanResult.notEnough 0 := by
  constructor
  · unfold getBrightness
    rw [if_neg]
    · norm_num
    · norm_num
  · unfold decodeCanvas
    rw [black_best]
    norm_num

set_option maxRecDepth 10000 in
/-- C4: flipping bit 2 of the data-region height at position 1 of
`encode(0)` (level 0 becomes level 4) is NOT caught: decode reports
`valid: true` with the wrong identifier 962072674304, because the
JavaScript 32-bit shifts in `numToBytes` make the checksum ignore
identifier bits 32-39. -/
theorem c4_undetected_flip :
    encodeCore 0 = [0, 0, 0, 0, 0, 0, 0, 0, 0, 0, 0, 7, 0, 0, 0, 0, 0, 0, 0, 0, 0, 0, 0] ∧
    decodeFromHeights (List.set (encodeCore 0) 1 4) = DecodeResult.ok 962072674304 := by decide

/-- C5: encode fails exactly on `NaN` parses and identifiers outside
[0, 2^40-1]; in particular -1 and 2^40 fail while 0 and 2^40-1 succeed. -/
theorem c5_encode_range :
    (∀ n : Int, encodeToHeights (some n) = none ↔ (n < 0 ∨ (MAX_40BIT : Int) < n))
    ∧ encodeToHeights none = none
    ∧ encodeToHeights (some (-1)) = none
    ∧ encodeToHeights (some (2 ^ 40)) = none
    ∧ (∃ hs, encodeToHeights (some 0) = some hs)
    ∧ (∃ hs, encodeToHeights (some (2 ^ 40 - 1)) = some hs) := by
  refine ⟨?_, rfl, ?_, ?_, ⟨_, rfl⟩, ⟨_, rfl⟩⟩
  · intro n
    simp only [encodeToHeights]
    split_ifs with hcond
    · simpa using hcond
    · simp [hcond]
  · rfl
  · rfl

/-- C6: decode fails with the bar-count error iff the length is not 23; on a
23-element sequence it fails with the marker error iff slot 0 or slot 22
exceeds 1, otherwise with the center-marker error iff slot 11 is below 6, and
when all three checks pass it proceeds to data extraction (producing either a
CRC-mismatch result or a verified result). -/
theorem c6_structural_rejects (hs : List Nat) :
    (decodeFromHeights hs = .err "Invalid bar count" ↔ hs.length ≠ 23)
    ∧ (hs.length = 23 →
        (decodeFromHeights hs = .err "Invalid start/end markers" ↔
          (1 < hs.getD 0 0 ∨ 1 < hs.getD 22 0)))
    ∧ (hs.length = 23 → ¬(1 < hs.getD 0 0 ∨ 1 < hs.getD 22 0) →
        (decodeFromHeights hs = .err "Invalid center reference bar" ↔ hs.getD 11 0 < 6))
    ∧ (hs.length = 23 → ¬(1 < hs.getD 0 0 ∨ 1 < hs.getD 22 0) → ¬(hs.getD 11 0 < 6) →
        ((∃ e g d, decodeFromHeights hs = .crcMismatch e g d) ∨
          ∃ d, decodeFromHeights hs = .ok d)) := by
  refine ⟨?_, ?_, ?_, ?_⟩
  · by_cases h23 : hs.length = 23
    · simp only [decodeFromHeights, NUM_BARS, show (23 : Nat) - 1 = 22 from rfl]
      rw [if_neg (by omega)]
      split_ifs <;> exact iff_of_false (by simp) (by omega)
    · simp only [decodeFromHeights, NUM_BARS, show (23 : Nat) - 1 = 22 from rfl]
      rw [if_pos (by omega)]
      exact iff_of_true rfl h23
  · intro h23
    simp only [decodeFromHeights, NUM_BARS, show (23 : Nat) - 1 = 22 from rfl]
    rw [if_neg (by omega)]
    by_cases hm : 1 < hs.getD 0 0 ∨ 1 < hs.getD 22 0
    · rw [if_pos hm]
      exact iff_of_true rfl hm
    · rw [if_neg hm]
      split_ifs <;> exact iff_of_false (by simp) hm
  · intro h23 hm
    simp only [decodeFromHeights, NUM_BARS, show (23 : Nat) - 1 = 22 from rfl]
    rw [if_neg (by omega), if_neg hm]
    by_cases hc : hs.getD 11 0 < 6
    · rw [if_pos hc]
      exact iff_of_true rfl hc
    · rw [if_neg hc]
      split_ifs <;> exact iff_of_false (by simp) hc
  · intro h23 hm hc
    simp only [decodeFromHeights, NUM_BARS, show (23 : Nat) - 1 = 22 from rfl]
    rw [if_neg (by omega), if_neg hm, if_neg hc]
    split_ifs with h4
    · exact Or.inl ⟨_, _, _, rfl⟩
    · exact Or.inr ⟨_, rfl⟩

/-- Witness for C6 at the concrete sequence `encodeCore 0`. -/
theorem c6_structural_rejects_witness :
    (¬decodeFromHeights (encodeCore 0) = DecodeResult.err "Invalid bar count") ∧
    ((∃ e g d, decodeFromHeights (encodeCore 0) = DecodeResult.crcMismatch e g d) ∨
      ∃ d, decodeFromHeights (encodeCore 0) = DecodeResult.ok d) :=
  ⟨fun h => by
      have h2 := (c6_structural_rejects (encodeCore 0)).1.mp h
      exact h2 (by decide),
    (c6_structural_rejects (encodeCore 0)).2.2.2 (by decide) (by decide) (by decide)⟩

/-- C7: every successfully encoded identifier yields exactly 23 bars with the
reference markers 0, 7, 0 at positions 0, 11 and 22. -/
theorem c7_marker_invariants (mediaRef : Option Int) (hs : List Nat)
    (h : encodeToHeights mediaRef = some hs) :
    hs.length = 23 ∧ hs.getD 0 0 = 0 ∧ hs.getD 11 0 = 7 ∧ hs.getD 22 0 = 0 := by
  match mediaRef with
  | none => exact absurd h (by simp [encodeToHeights])
  | some num =>
      simp only [encodeToHeights] at h
      split_ifs at h
      injection h with h'
      subst h'
      exact ⟨encodeCore_length _, encodeCore_getD0 _, encodeCore_getD11 _, encodeCore_getD22 _⟩

set_option maxRecDepth 10000 in
/-- Witness for C7 at the concrete identifier 5. -/
theorem c7_marker_invariants_witness :
    (encodeCore 5).length = 23 ∧ (encodeCore 5).getD 0 0 = 0 ∧
      (encodeCore 5).getD 11 0 = 7 ∧ (encodeCore 5).getD 22 0 = 0 :=
  c7_marker_invariants (some 5) (encodeCore 5) (by decide)

/-- C8: on a structurally valid 23-element sequence whose recomputed CRC
disagrees with the embedded checksum, decode still returns the reconstructed
identifier inside the CRC-mismatch result, and every CRC-mismatch result
carries a genuine disagreement together with that identifier. -/
theorem c8_soft_failure (hs : List Nat) (h23 : hs.length = 23)
    (hm : ¬(1 < hs.getD 0 0 ∨ 1 < hs.getD 22 0)) (hcen : ¬(hs.getD 11 0 < 6)) :
    (crc8 (numToBytes (recombine (unpermute (stripMarkers hs)) >>> 8) 5)
        ≠ recombine (unpermute (stripMarkers hs)) &&& 255 →
      decodeFromHeights hs =
        .crcMismatch
          (crc8 (numToBytes (recombine (unpermute (stripMarkers hs)) >>> 8) 5))
          (recombine (unpermute (stripMarkers hs)) &&& 255)
          (recombine (unpermute (stripMarkers hs)) >>> 8))
    ∧ ∀ e g d, decodeFromHeights hs = .crcMismatch e g d →
        e ≠ g ∧ d = recombine (unpermute (stripMarkers hs)) >>> 8 := by
  simp only [decodeFromHeights, NUM_BARS, show (23 : Nat) - 1 = 22 from rfl]
  rw [if_neg (by omega), if_neg hm, if_neg hcen]
  constructor
  · intro hne
    rw [if_pos hne]
  · intro e g d h
    split_ifs at h with hne
    injection h with he hg hd
    subst he; subst hg; subst hd
    exact ⟨hne, rfl⟩

set_option maxRecDepth 10000 in
/-- Witness for C8: corrupting slot 10 of `encode(0)` yields the soft
CRC-mismatch result that still carries the reconstructed identifier 0. -/
theorem c8_soft_failure_witness :
    decodeFromHeights (List.set (encodeCore 0) 10 1) = DecodeResult.crcMismatch 0 1 0 := by
  have h := (c8_soft_failure (List.set (encodeCore 0) 10 1) (by decide) (by decide)
    (by decide)).1 (by decide)
  exact h.trans (by decide)

set_option maxHeartbeats 1600000 in
/-- C9: applying the spread permutation and then the inverse assignment
returns any 16-element sequence unchanged, and the index map
`i ↦ (i*7) mod 16` is a bijection on positions 0-15. -/
theorem c9_permutation_bijection (s : List Nat) (h : s.length = 16) :
    unpermute (permute s) = s ∧
    Function.Bijective
      (fun i : Fin 16 => (⟨i.val * 7 % 16, Nat.mod_lt _ (by norm_num)⟩ : Fin 16)) := by
  constructor
  · obtain ⟨a0, s, rfl⟩ := List.exists_of_length_succ s h
    simp only [List.length_cons] at h
    obtain ⟨a1, s, rfl⟩ := List.exists_of_length_succ s (show s.length = 14 + 1 by omega)
    simp only [List.length_cons] at h
    obtain ⟨a2, s, rfl⟩ := List.exists_of_length_succ s (show s.length = 13 + 1 by omega)
    simp only [List.length_cons] at h
    obtain ⟨a3, s, rfl⟩ := List.exists_of_length_succ s (show s.length = 12 + 1 by omega)
    simp only [List.length_cons] at h
    obtain ⟨a4, s, rfl⟩ := List.exists_of_length_succ s (show s.length = 11 + 1 by omega)
    simp only [List.length_cons] at h
    obtain ⟨a5, s, rfl⟩ := List.exists_of_length_succ s (show s.length = 10 + 1 by omega)
    simp only [List.length_cons] at h
    obtain ⟨a6, s, rfl⟩ := List.exists_of_length_succ s (show s.length = 9 + 1 by omega)
    simp only [List.length_cons] at h
    obtain ⟨a7, s, rfl⟩ := List.exists_of_length_succ s (show s.length = 8 + 1 by omega)
    simp only [List.length_cons] at h
    obtain ⟨a8, s, rfl⟩ := List.exists_of_length_succ s (show s.length = 7 + 1 by omega)
    simp only [List.length_cons] at h
    obtain ⟨a9, s, rfl⟩ := List.exists_of_length_succ s (show s.length = 6 + 1 by omega)
    simp only [List.length_cons] at h
    obtain ⟨a10, s, rfl⟩ := List.exists_of_length_succ s (show s.length = 5 + 1 by omega)
    simp only [List.length_cons] at h
    obtain ⟨a11, s, rfl⟩ := List.exists_of_length_succ s (show s.length = 4 + 1 by omega)
    simp only [List.length_cons] at h
    obtain ⟨a12, s, rfl⟩ := List.exists_of_length_succ s (show s.length = 3 + 1 by omega)
    simp only [List.length_cons] at h
    obtain ⟨a13, s, rfl⟩ := List.exists_of_length_succ s (show s.length = 2 + 1 by omega)
    simp only [List.length_cons] at h
    obtain ⟨a14, s, rfl⟩ := List.exists_of_length_succ s (show s.length = 1 + 1 by omega)
    simp only [List.length_cons] at h
    obtain ⟨a15, s, rfl⟩ := List.exists_of_length_succ s (show s.length = 0 + 1 by omega)
    simp only [List.length_cons] at h
    obtain rfl := List.length_eq_zero.mp (show s.length = 0 by omega)
    rfl
  · decide

/-- Witness for C9 at the concrete sequence `[0, 1, ..., 15]`. -/
theorem c9_permutation_bijection_witness :
    unpermute (permute [0, 1, 2, 3, 4, 5, 6, 7, 8, 9, 10, 11, 12, 13, 14, 15]) =
      [0, 1, 2, 3, 4, 5, 6, 7, 8, 9, 10, 11, 12, 13, 14, 15] ∧
    Function.Bijective
      (fun i : Fin 16 => (⟨i.val * 7 % 16, Nat.mod_lt _ (by norm_num)⟩ : Fin 16)) :=
  c9_permutation_bijection [0, 1, 2, 3, 4, 5, 6, 7, 8, 9, 10, 11, 12, 13, 14, 15] (by decide)

/-- C10: every identifier that decode returns — verified or inside the
CRC-mismatch result — is below 2^40, because the reassembled payload is at
most 48 bits and the low 8 checksum bits are dropped. -/
theorem c10_identifier_bound (hs : List Nat) (d : Nat)
    (h : decodeFromHeights hs = .ok d ∨ ∃ e g, decodeFromHeights hs = .crcMismatch e g d) :
    d < 2 ^ 40 := by
  have hlt : recombine (unpermute (stripMarkers hs)) < 2 ^ 48 :=
    recombine_lt16 _ (unpermute_length _)
  have hd : d = recombine (unpermute (stripMarkers hs)) >>> 8 := by
    simp only [decodeFromHeights] at h
    split_ifs at h <;> rcases h with h | ⟨e, g, h⟩ <;>
      first
        | (injection h with h1 h2 h3; exact h3.symm)
        | (injection h with h1; exact h1.symm)
        | injection h
        | exact h.elim
  rw [hd, Nat.shiftRight_eq_div_pow]
  omega

set_option maxRecDepth 10000 in
/-- Witness for C10 at the decode of `encodeCore 0`. -/
theorem c10_identifier_bound_witness : (0 : Nat) < 2 ^ 40 :=
  c10_identifier_bound (encodeCore 0) 0 (Or.inl (by decide))

end WaveformBarcode
